import Mathlib

/-!
Verification of the appointment classification and cancellation-eligibility
logic of the client-appointments screen (the nail-salon booking client).

The embedding models the TypeScript/React-Native source shallowly:

* An `AvailableTimeSlot` row becomes the structure `Slot`.  The `slot_date`
  string `"YYYY-MM-DD"` is modelled by its epoch-day number (an `Int`,
  `none` for a missing/empty value); the `slot_time` string is modelled by
  `TimeStr`, which records the hour value, the minute value and the number
  of digits of the hour component (the source treats `"9:30"` and `"09:30"`
  differently: `isWithin48Hours` pads the hour with `padStart(2, '0')`,
  while `nextAppointment` splices the raw string into an ISO date-time
  literal, where a one-digit hour is not a conforming format and yields an
  Invalid Date).  Minutes are assumed two-digit and seconds absent or zero,
  as in the formats the data store produces.
* JavaScript instants (`Date.getTime()` / `Date.now()`) are `Int`
  milliseconds.  The host time zone is a fixed offset `tz` in milliseconds
  with local wall clock = UTC instant + `tz`; `Date.setHours(0,0,0,0)` is
  `localMidnight`, `new Date("YYYY-MM-DD")` is UTC midnight of that day,
  and `new Date("YYYY-MM-DDTHH:MM")` is local wall-clock time.  An Invalid
  Date (`NaN` timestamp) is modelled by `Option Int` being `none`; every
  numeric comparison against `NaN` is `false`, and the sort comparator
  `a - b` evaluates to `NaN`, which `Array.prototype.sort` treats as `+0`
  (the elements count as equal and, the sort being stable, keep their
  relative order).
* JavaScript string truthiness (`s && ...`) is `jsTruthyStr`: `null`,
  `undefined` and `""` are falsy.
* The Supabase collaborators are modelled over a store `List Slot`: the
  fetch query keeps rows whose `slot_date` is in the requested date list
  and whose `is_available` is `false`, then applies the `.or(...)` identity
  filter (`ilike` is case-insensitive containment, `eq` is string
  equality); an update with `.eq` filters rewrites exactly the matching
  rows and reports an error only for transport failures, never for an
  empty match.  The `.order(...)` clauses are not modelled: every claim
  below is either membership-level or quantified over an arbitrary input
  list.  Rejections of the awaited waitlist notifiers and of the admin
  notifier are injected through explicit `Bool` flags.
-/

/-! ### Milliseconds arithmetic -/

def msPerMinute : Int := 1000 * 60

def msPerHour : Int := 1000 * 60 * 60

def msPerDay : Int := 1000 * 60 * 60 * 24

/-! ### Data model -/

/-- The hour/minute components of a `slot_time` string, together with the
number of digits of the hour component in the raw string (`"9:30"` has
`hhDigits = 1`, `"09:30"` has `hhDigits = 2`). -/
structure TimeStr where
  hh : Nat
  mm : Nat
  hhDigits : Nat
  deriving DecidableEq, Repr

/-- An `appointments` row as consumed by the screen.  `slot_date` is the
epoch-day number encoded by the ISO date string (`none` for a missing or
empty value); optional text fields are `none` for `null`/`undefined`. -/
structure Slot where
  id : Nat
  slot_date : Option Int
  slot_time : Option TimeStr
  client_name : Option String
  client_phone : Option String
  service_name : Option String
  is_available : Bool
  deriving DecidableEq, Repr

/-- The authenticated user as exposed by the auth store: `{ name?, phone? }`. -/
structure Identity where
  name : Option String
  phone : Option String
  deriving DecidableEq, Repr

/-- JavaScript truthiness of an optional string: `null`, `undefined` and
`""` are falsy. -/
def jsTruthyStr : Option String → Bool
  | none => false
  | some s => s != ""

/-! ### JavaScript date semantics (fixed-offset zone `tz`) -/

/-- `new Date("YYYY-MM-DD")` parses a date-only ISO string as UTC midnight. -/
def jsDateOnlyMs (d : Int) : Int := d * msPerDay

/-- `date.setHours(0, 0, 0, 0)`: floor an instant to the most recent local
midnight (local wall clock = UTC + `tz`). -/
def localMidnight (tz t : Int) : Int := ((t + tz).fdiv msPerDay) * msPerDay - tz

/-- `new Date("YYYY-MM-DDTHH:MM")` parses a date-time ISO string as local
wall-clock time; the instant is the wall-clock value minus the offset. -/
def jsDateTimeMs (tz : Int) (d : Int) (hh mm : Nat) : Int :=
  d * msPerDay + (hh : Int) * msPerHour + (mm : Int) * msPerMinute - tz

/-! ### Cancellation eligibility (`isWithin48Hours`, `handleCancelAppointment`) -/

/-- The `[hh = '00', mm = '00'] = time.split(':')` destructuring of
`isWithin48Hours`: a missing (or empty) `slot_time` becomes `'00:00'`. -/
def apptHHMM (a : Slot) : Nat × Nat :=
  match a.slot_time with
  | none => (0, 0)
  | some t => (t.hh, t.mm)

/-- `isWithin48Hours` from the source: build
`new Date(date + 'T' + hh.padStart(2,'0') + ':' + mm.padStart(2,'0'))`,
subtract `Date.now()`, divide by an hour in milliseconds and compare with
`48`.  A missing `slot_date` returns `false` immediately; hour/minute
values outside the calendar range make the `Date` invalid, and the `NaN`
comparison is `false`.  The padding makes the hour two-digit, so a partial
`H:MM` time parses fine here. -/
def isWithin48Hours (tz now : Int) (a : Slot) : Bool :=
  match a.slot_date with
  | none => false
  | some d =>
    let hm := apptHHMM a
    if hm.1 < 24 && hm.2 < 60 then
      decide (((jsDateTimeMs tz d hm.1 hm.2 - now : Int) : ℚ) / (1000 * 60 * 60) < 48)
    else
      false

/-- The two outcomes of `handleCancelAppointment`: the blocked-window modal
(`showLateCancelModal`) or the direct confirmation modal (`showCancelModal`). -/
inductive CancelEligibility where
  | withinWindow
  | confirmable
  deriving DecidableEq, Repr

/-- `handleCancelAppointment` from the source: route the selected
appointment to the late-cancel (blocked) modal when `isWithin48Hours`
holds, otherwise to the direct cancellation confirmation modal. -/
def handleCancelAppointment (tz now : Int) (a : Slot) : CancelEligibility :=
  if isWithin48Hours tz now a then .withinWindow else .confirmable

/-! ### Ownership filtering (`verifiedUserAppointments` and the fetch-side filter) -/

/-- Whitespace as stripped by JavaScript `String.prototype.trim` (the
common ASCII cases). -/
def isJsSpace (c : Char) : Bool :=
  c == ' ' || c == '\t' || c == '\n' || c == '\r'

/-- `String.prototype.trim`: drop whitespace from both ends. -/
def jsTrim (s : String) : String :=
  ⟨((s.data.dropWhile isJsSpace).reverse.dropWhile isJsSpace).reverse⟩

/-- `String.prototype.toLowerCase`, restricted to the ASCII lowering the
identity fields use. -/
def jsToLower (s : String) : String :=
  ⟨s.data.map Char.toLower⟩

/-- The name half of the ownership check:
`slot.client_name && user?.name && slot.client_name.trim().toLowerCase()
=== user.name.trim().toLowerCase()`. -/
def nameMatch (u : Identity) (s : Slot) : Bool :=
  jsTruthyStr s.client_name && jsTruthyStr u.name &&
    (jsToLower (jsTrim (s.client_name.getD "")) == jsToLower (jsTrim (u.name.getD "")))

/-- The phone half of the ownership check:
`slot.client_phone && user?.phone && slot.client_phone.trim() ===
user.phone.trim()`. -/
def phoneMatch (u : Identity) (s : Slot) : Bool :=
  jsTruthyStr s.client_phone && jsTruthyStr u.phone &&
    (jsTrim (s.client_phone.getD "") == jsTrim (u.phone.getD ""))

/-- `nameMatch || phoneMatch`: the predicate of the client-side exact
filters (both the fetch-side refilter and `verifiedUserAppointments`). -/
def ownershipMatch (u : Identity) (s : Slot) : Bool :=
  nameMatch u s || phoneMatch u s

/-- `verifiedUserAppointments` from the source: with neither a truthy name
nor a truthy phone return `[]`; otherwise keep the rows passing
`ownershipMatch`. -/
def verifiedUserAppointments (u : Identity) (apps : List Slot) : List Slot :=
  if !jsTruthyStr u.name && !jsTruthyStr u.phone then []
  else apps.filter (fun s => ownershipMatch u s)

/-! ### Fetch pipeline (`getUserAppointmentsForMultipleDates`, `loadUserAppointments`) -/

/-- `needle` occurs as a substring of `hay` (the `%needle%` pattern of the
`ilike` filter, wildcards inside the user name not modelled). -/
def strContainsSub (hay needle : String) : Bool :=
  (List.range (hay.toList.length + 1)).any
    (fun i => needle.toList.isPrefixOf (hay.toList.drop i))

/-- The `.or(...)` identity filter the fetch pushes to the server: a
condition is pushed per truthy field, `client_name.ilike.%name.trim()%`
(case-insensitive containment, `NULL` never matches) or
`client_phone.eq.phone.trim()`; with no truthy field no filter is applied. -/
def serverIdentityFilter (u : Identity) (s : Slot) : Bool :=
  if jsTruthyStr u.name || jsTruthyStr u.phone then
    (jsTruthyStr u.name &&
      (match s.client_name with
       | none => false
       | some cn => strContainsSub (jsToLower cn) (jsToLower (jsTrim (u.name.getD ""))))) ||
    (jsTruthyStr u.phone &&
      (match s.client_phone with
       | none => false
       | some cp => cp == jsTrim (u.phone.getD "")))
  else true

/-- The base fetch query: `slot_date` in the requested dates and
`is_available = false` (only booked rows). -/
def serverBaseFilter (dates : List Int) (s : Slot) : Bool :=
  (match s.slot_date with
   | none => false
   | some d => decide (d ∈ dates)) && !s.is_available

/-- `getUserAppointmentsForMultipleDates` from the source: run the fetch
query (date window, booked only, best-effort identity `or`-filter), then
refilter client-side for exact matches when a name or phone was given. -/
def getUserAppointmentsForMultipleDates (dates : List Int) (u : Identity)
    (store : List Slot) : List Slot :=
  let fetched := (store.filter (serverBaseFilter dates)).filter (serverIdentityFilter u)
  if jsTruthyStr u.name || jsTruthyStr u.phone then
    fetched.filter (fun s => ownershipMatch u s)
  else fetched

/-- `date.setDate(today.getDate() + i)` on a copy of `new Date()`: shifting
the local calendar day by `i` moves the instant by exactly `i` days (the
zone is a fixed offset). -/
def jsAddDays (now : Int) (i : Int) : Int := now + i * msPerDay

/-- `toISOString().split('T')[0]`: the UTC calendar date of an instant, as
an epoch-day number. -/
def toISODateString (t : Int) : Int := t.fdiv msPerDay

/-- The date window built by `loadUserAppointments`: `i` from `-7` to `14`
inclusive, each date rendered through `toISOString` (hence anchored at the
UTC calendar date, not the local one). -/
def datesWindow (now : Int) : List Int :=
  (List.range 22).map (fun (k : Nat) => toISODateString (jsAddDays now ((k : Int) - 7)))

/-- `loadUserAppointments` from the source: with no truthy name and no
truthy phone it returns without fetching (the list stays at its initial
`[]`); otherwise it fetches the 22-date window around `now`. -/
def loadUserAppointments (now : Int) (u : Identity) (store : List Slot) : List Slot :=
  if !jsTruthyStr u.name && !jsTruthyStr u.phone then []
  else getUserAppointmentsForMultipleDates (datesWindow now) u store

/-! ### Upcoming/past partition and the next appointment -/

/-- `new Date(slot.slot_date)` in the partition predicates: UTC midnight
for a present date, an Invalid Date (`none`) for a missing one. -/
def dateInstant (s : Slot) : Option Int := s.slot_date.map jsDateOnlyMs

/-- The `upcoming` predicate: `appointmentDate.setHours(0,0,0,0)` then
`appointmentDate >= today`, where `today` is the memoized
`new Date()` with `setHours(0,0,0,0)` — computed once from `now` and shared
by both filters.  A comparison against an Invalid Date is `false`. -/
def upcomingPred (tz now : Int) (s : Slot) : Bool :=
  match dateInstant s with
  | none => false
  | some t => decide (localMidnight tz now ≤ localMidnight tz t)

/-- The `past` predicate: `appointmentDate < today` on the same local
midnights. -/
def pastPred (tz now : Int) (s : Slot) : Bool :=
  match dateInstant s with
  | none => false
  | some t => decide (localMidnight tz t < localMidnight tz now)

/-- `upcomingAppointments` from the source. -/
def upcomingAppointments (tz now : Int) (u : Identity) (apps : List Slot) : List Slot :=
  (verifiedUserAppointments u apps).filter (upcomingPred tz now)

/-- `pastAppointments` from the source. -/
def pastAppointments (tz now : Int) (u : Identity) (apps : List Slot) : List Slot :=
  (verifiedUserAppointments u apps).filter (pastPred tz now)

/-- The sort key of `nextAppointment`:
`new Date(a.slot_date + 'T' + (a.slot_time || '00:00')).getTime()`.
The raw time string is spliced in without padding, so only a two-digit
in-range hour (with two-digit minutes) is a conforming ISO time; a partial
or out-of-range time — and a missing date — yield an Invalid Date (`none`,
i.e. `NaN`). -/
def nextKey (tz : Int) (s : Slot) : Option Int :=
  match s.slot_date with
  | none => none
  | some d =>
    match s.slot_time with
    | none => some (jsDateTimeMs tz d 0 0)
    | some t =>
      if t.hhDigits == 2 && t.hh < 24 && t.mm < 60 then
        some (jsDateTimeMs tz d t.hh t.mm)
      else none

/-- The comparator `(a, b) => a.dateTime.getTime() - b.dateTime.getTime()`:
`a` sorts strictly before `b` only when both timestamps are numbers and
`a`'s is smaller; a `NaN` difference is treated as `+0` (equal) by
`Array.prototype.sort`. -/
def keyLt : Option Int → Option Int → Bool
  | some a, some b => decide (a < b)
  | _, _ => false

/-- One step of a stable sort under `keyLt`: insert `x` after every
already-placed element it does not strictly precede (equal elements keep
their original relative order, as `Array.prototype.sort` guarantees). -/
def sortInsert (tz : Int) (x : Slot) : List Slot → List Slot
  | [] => [x]
  | y :: ys =>
    if keyLt (nextKey tz x) (nextKey tz y) then x :: y :: ys
    else y :: sortInsert tz x ys

/-- The stable sort of `nextAppointment` (`withDateTime.sort(...)`):
elements are inserted left to right, so ties and `NaN` comparisons preserve
input order. -/
def sortByKey (tz : Int) (l : List Slot) : List Slot :=
  l.foldl (fun acc x => sortInsert tz x acc) []

/-- `nextAppointment` from the source: `null` on an empty upcoming list,
otherwise the first element of the sorted copy. -/
def nextAppointment (tz : Int) (l : List Slot) : Option Slot :=
  (sortByKey tz l).head?

/-! ### Cancellation operation (`cancelAppointment`, `confirmCancelAppointment`) -/

/-- The row rewrite of the cancel update: `is_available: true` and the
client/service fields cleared. -/
def clearSlot (s : Slot) : Slot :=
  { s with
    is_available := true
    client_name := none
    client_phone := none
    service_name := none }

/-- Observable outcome of `clientAppointmentsApi.cancelAppointment`:
the data store after the call, the boolean the function returns, and
whether each waitlist notifier was invoked. -/
structure CancelResult where
  store : List Slot
  success : Bool
  wlRan : Bool
  svcRan : Bool
  deriving DecidableEq, Repr

/-- `cancelAppointment` from the source.  First fetch the row by id with
`.single()` (an error — zero or several rows — returns `false` with
nothing changed).  Then run the conditional update rewriting rows with
`id = slotId` and `is_available = false`; the client reports an error only
for transport failures, never for an empty match, so execution continues
regardless of how many rows were rewritten.  Then `await` the two waitlist
notifiers inside the same `try`: `wlThrows`/`svcThrows` inject rejections,
which the surrounding `catch` turns into a `false` return.  Only when
nothing throws does the function return `true`. -/
def cancelAppointment (wlThrows svcThrows : Bool) (store : List Slot)
    (slotId : Nat) : CancelResult :=
  match store.filter (fun s => s.id == slotId) with
  | [_apt] =>
    let store2 := store.map
      (fun s => if s.id == slotId && !s.is_available then clearSlot s else s)
    if wlThrows then ⟨store2, false, true, false⟩
    else if svcThrows then ⟨store2, false, true, true⟩
    else ⟨store2, true, true, true⟩
  | _ => ⟨store, false, false, false⟩

/-- Observable outcome of `confirmCancelAppointment`: the store, the local
`userAppointments` list, whether the user saw success (vs. the retry
alert), and whether the admin notification was delivered. -/
structure ConfirmResult where
  store : List Slot
  localList : List Slot
  reportedSuccess : Bool
  adminDelivered : Bool
  deriving DecidableEq, Repr

/-- `confirmCancelAppointment` from the source: call the API; on `true`
remove the selected id from the local list and fire the admin notification
with `.catch(() => {})` (a rejection is swallowed and cannot change the
reported outcome); on `false` show the retry alert and leave the local
list untouched. -/
def confirmCancelAppointment (wlThrows svcThrows adminThrows : Bool)
    (store : List Slot) (localList : List Slot) (selected : Slot) : ConfirmResult :=
  let r := cancelAppointment wlThrows svcThrows store selected.id
  if r.success then
    { store := r.store
      localList := localList.filter (fun apt => apt.id != selected.id)
      reportedSuccess := true
      adminDelivered := !adminThrows }
  else
    { store := r.store, localList := localList, reportedSuccess := false,
      adminDelivered := false }

/-! ### Spec-side definitions, for comparison with the code -/

/-- Follows the spec's words for claim C3: the composed timestamp
`(date, time-or-"00:00")` under which `next` is claimed minimal, "with a
missing or partial time treated as 00:00 for ordering".  A well-formed
two-digit in-range time contributes its value; a missing, partial or
malformed one contributes `00:00`. -/
def specComposedKey (tz : Int) (s : Slot) : Int :=
  match s.slot_date with
  | none => 0
  | some d =>
    match s.slot_time with
    | none => jsDateTimeMs tz d 0 0
    | some t =>
      if t.hhDigits == 2 && t.hh < 24 && t.mm < 60 then jsDateTimeMs tz d t.hh t.mm
      else jsDateTimeMs tz d 0 0

/-- Follows the claim C7 wording: a record is claimed kept iff the
trimmed, case-insensitive `clientName` equals the identity's name, or the
trimmed `clientPhone` equals the identity's phone (over the present field
values). -/
def specOwnershipMatch (u : Identity) (s : Slot) : Prop :=
  (∃ cn un, s.client_name = some cn ∧ u.name = some un ∧
    jsToLower (jsTrim cn) = jsToLower (jsTrim un)) ∨
  (∃ cp up, s.client_phone = some cp ∧ u.phone = some up ∧
    jsTrim cp = jsTrim up)

/-- The key value of a slot whose `nextKey` is a number (used to state
minimality of the chosen next appointment). -/
def keyv (tz : Int) (s : Slot) : Int := (nextKey tz s).getD 0

/-! ## Theorems -/

/-- The real-division comparison of the source is equivalent to an exact
integer comparison against 48 hours of milliseconds. -/
theorem ratDiv_lt_48_iff (m : Int) :
    ((m : ℚ) / (1000 * 60 * 60) < 48) ↔ m < 48 * msPerHour := by
  rw [div_lt_iff₀ (by norm_num)]
  constructor
  · intro h
    have : (m : ℚ) < ((48 * msPerHour : Int) : ℚ) := by
      unfold msPerHour; push_cast; linarith
    exact_mod_cast this
  · intro h
    have : (m : ℚ) < ((48 * msPerHour : Int) : ℚ) := by exact_mod_cast h
    unfold msPerHour at this; push_cast at this; linarith

/-- C4: the eligibility test is a strict less-than on
`deltaHours = (appointmentDateTime - now) / 1 hour` against `48`: the
appointment is routed to the blocked-window modal exactly when the
difference is strictly below 48 hours, so an appointment exactly 48.0
hours away is `Confirmable` and anything strictly closer is
`WithinWindow`; `appointmentDateTime` is composed from the record's date
and its zero-padded time, defaulting to `00:00` when the time is missing. -/
theorem handleCancelAppointment_strict_48h (tz now : Int) (a : Slot) (d : Int)
    (hd : a.slot_date = some d)
    (hhk : (apptHHMM a).1 < 24) (hmk : (apptHHMM a).2 < 60) :
    (handleCancelAppointment tz now a = .withinWindow ↔
      jsDateTimeMs tz d (apptHHMM a).1 (apptHHMM a).2 - now < 48 * msPerHour) ∧
    (jsDateTimeMs tz d (apptHHMM a).1 (apptHHMM a).2 - now = 48 * msPerHour →
      handleCancelAppointment tz now a = .confirmable) := by
  have hb : isWithin48Hours tz now a =
      decide (((jsDateTimeMs tz d (apptHHMM a).1 (apptHHMM a).2 - now : Int) : ℚ) /
        (1000 * 60 * 60) < 48) := by
    unfold isWithin48Hours
    rw [hd]
    simp [hhk, hmk]
  have hiff : isWithin48Hours tz now a = true ↔
      jsDateTimeMs tz d (apptHHMM a).1 (apptHHMM a).2 - now < 48 * msPerHour := by
    rw [hb, decide_eq_true_eq]
    exact ratDiv_lt_48_iff _
  constructor
  · constructor
    · intro hw
      by_cases h : isWithin48Hours tz now a = true
      · exact hiff.1 h
      · exfalso
        unfold handleCancelAppointment at hw
        simp [h] at hw
    · intro hlt
      unfold handleCancelAppointment
      simp [hiff.2 hlt]
  · intro heq
    have hno : ¬ isWithin48Hours tz now a = true := by
      intro h
      have := hiff.1 h
      omega
    unfold handleCancelAppointment
    simp [hno]

/-- Witness for C4: with `tz = 0`, `now = 0`, a record dated epoch day 2
with no time is exactly 48 hours away and is routed to the confirmation
modal. -/
theorem handleCancelAppointment_strict_48h_witness :
    handleCancelAppointment 0 0 ⟨1, some 2, none, some "dana", none, none, false⟩ =
      .confirmable := by
  have h := handleCancelAppointment_strict_48h 0 0
    ⟨1, some 2, none, some "dana", none, none, false⟩ 2 rfl (by decide) (by decide)
  exact h.2 (by decide)

/-- C9: a record with no `slot_date` short-circuits `isWithin48Hours` to
`false`, so `handleCancelAppointment` treats it as directly cancellable
(the confirmation modal, not the blocked-window modal). -/
theorem missing_date_is_confirmable (tz now : Int) (a : Slot)
    (hd : a.slot_date = none) :
    isWithin48Hours tz now a = false ∧
      handleCancelAppointment tz now a = .confirmable := by
  have h : isWithin48Hours tz now a = false := by
    unfold isWithin48Hours
    rw [hd]
  exact ⟨h, by unfold handleCancelAppointment; rw [h]; simp⟩

/-- Witness for C9: a concrete record with a missing date, evaluated at a
concrete current time. -/
theorem missing_date_is_confirmable_witness :
    isWithin48Hours 0 1000 ⟨7, none, some ⟨14, 30, 2⟩, some "dana", none, none, false⟩ = false ∧
      handleCancelAppointment 0 1000 ⟨7, none, some ⟨14, 30, 2⟩, some "dana", none, none, false⟩ =
        .confirmable :=
  missing_date_is_confirmable 0 1000 _ rfl

/-! ### Ownership lemmas (C7, C8) -/

/-- With neither a truthy name nor a truthy phone, no record matches. -/
theorem ownershipMatch_false_of_no_identity (u : Identity) (s : Slot)
    (hn : jsTruthyStr u.name = false) (hp : jsTruthyStr u.phone = false) :
    ownershipMatch u s = false := by
  unfold ownershipMatch nameMatch phoneMatch
  rw [hn, hp]
  simp

/-- The early `return []` of `verifiedUserAppointments` coincides with
filtering: when it fires, no record could have matched anyway. -/
theorem verifiedUserAppointments_eq_filter (u : Identity) (apps : List Slot) :
    verifiedUserAppointments u apps = apps.filter (fun s => ownershipMatch u s) := by
  unfold verifiedUserAppointments
  by_cases h : (!jsTruthyStr u.name && !jsTruthyStr u.phone) = true
  · rw [if_pos h]
    simp only [Bool.and_eq_true, Bool.not_eq_true'] at h
    symm
    rw [List.filter_eq_nil_iff]
    intro a _
    rw [ownershipMatch_false_of_no_identity u a h.1 h.2]
    simp
  · rw [if_neg h]

/-- `ownershipMatch` spelled out: both fields of a matching channel must be
present and non-empty (JavaScript truthiness), and then compare after
trimming (and lowercasing, for names). -/
theorem ownershipMatch_iff (u : Identity) (s : Slot) :
    ownershipMatch u s = true ↔
      ((∃ cn un, s.client_name = some cn ∧ u.name = some un ∧ cn ≠ "" ∧ un ≠ "" ∧
          jsToLower (jsTrim cn) = jsToLower (jsTrim un)) ∨
       (∃ cp up, s.client_phone = some cp ∧ u.phone = some up ∧ cp ≠ "" ∧ up ≠ "" ∧
          jsTrim cp = jsTrim up)) := by
  unfold ownershipMatch nameMatch phoneMatch jsTruthyStr
  cases hcn : s.client_name <;> cases hun : u.name <;>
    cases hcp : s.client_phone <;> cases hup : u.phone <;>
      simp [Option.getD, bne_iff_ne, and_assoc]

/-- C7 counterexample: for the identity `{name: "", phone: "0501"}` and a
record with `clientName = ""` and a non-matching phone, the trimmed
case-insensitive names are equal (both empty), so the claim says the
record is kept — but the filter drops it, because an empty string is falsy
and the truthiness guards fail before the comparison. -/
theorem ownership_claim_counterexample :
    specOwnershipMatch ⟨some "", some "0501"⟩
        ⟨1, some 1, none, some "", some "9999", none, false⟩ ∧
      (⟨1, some 1, none, some "", some "9999", none, false⟩ : Slot) ∉
        verifiedUserAppointments ⟨some "", some "0501"⟩
          [⟨1, some 1, none, some "", some "9999", none, false⟩] :=
  ⟨Or.inl ⟨"", "", rfl, rfl, rfl⟩, by decide⟩

/-- C7 amended: a record is kept by the client-side ownership filter iff
it is in the input and either the name channel matches — both `clientName`
and the identity's name present and non-empty, equal after trimming and
lowercasing — or the phone channel matches — both present and non-empty,
equal after trimming (inclusive-or); the filter applies to whatever list
the fetch produced, regardless of the fetch-side filtering. -/
theorem verified_keeps_iff_truthy_match (u : Identity) (apps : List Slot) (s : Slot) :
    s ∈ verifiedUserAppointments u apps ↔
      s ∈ apps ∧
        ((∃ cn un, s.client_name = some cn ∧ u.name = some un ∧ cn ≠ "" ∧ un ≠ "" ∧
            jsToLower (jsTrim cn) = jsToLower (jsTrim un)) ∨
         (∃ cp up, s.client_phone = some cp ∧ u.phone = some up ∧ cp ≠ "" ∧ up ≠ "" ∧
            jsTrim cp = jsTrim up)) := by
  rw [verifiedUserAppointments_eq_filter, List.mem_filter, ← ownershipMatch_iff]

/-- C8: an identity with neither a name nor a phone produces empty
verified, upcoming and past views and no next appointment, for every input
list — the defined no-identity behavior, not an error. -/
theorem empty_identity_empty_views (tz now : Int) (u : Identity) (apps : List Slot)
    (hn : u.name = none) (hp : u.phone = none) :
    verifiedUserAppointments u apps = [] ∧
      upcomingAppointments tz now u apps = [] ∧
      pastAppointments tz now u apps = [] ∧
      nextAppointment tz (upcomingAppointments tz now u apps) = none := by
  have hv : verifiedUserAppointments u apps = [] := by
    unfold verifiedUserAppointments
    rw [hn, hp]
    rfl
  have hu : upcomingAppointments tz now u apps = [] := by
    unfold upcomingAppointments
    rw [hv]
    rfl
  have hpa : pastAppointments tz now u apps = [] := by
    unfold pastAppointments
    rw [hv]
    rfl
  refine ⟨hv, hu, hpa, ?_⟩
  rw [hu]
  rfl

/-- Witness for C8: a concrete nameless, phoneless identity over a
concrete one-record list. -/
theorem empty_identity_empty_views_witness :
    verifiedUserAppointments ⟨none, none⟩ [⟨1, some 1, none, some "dana", none, none, false⟩] = [] ∧
      upcomingAppointments 0 0 ⟨none, none⟩ [⟨1, some 1, none, some "dana", none, none, false⟩] = [] ∧
      pastAppointments 0 0 ⟨none, none⟩ [⟨1, some 1, none, some "dana", none, none, false⟩] = [] ∧
      nextAppointment 0 (upcomingAppointments 0 0 ⟨none, none⟩
        [⟨1, some 1, none, some "dana", none, none, false⟩]) = none :=
  empty_identity_empty_views 0 0 ⟨none, none⟩ _ rfl rfl

/-! ### Sorting lemmas (`nextAppointment`) -/

/-- Inserting into the sorted prefix adds exactly the inserted element. -/
theorem mem_sortInsert (tz : Int) (x : Slot) (l : List Slot) (s : Slot) :
    s ∈ sortInsert tz x l ↔ s = x ∨ s ∈ l := by
  induction l with
  | nil => simp [sortInsert]
  | cons y ys ih =>
    unfold sortInsert
    by_cases h : keyLt (nextKey tz x) (nextKey tz y) = true
    · rw [if_pos h]
      simp
    · rw [if_neg h]
      simp [ih]
      tauto

/-- The stable sort is a permutation at the level of membership. -/
theorem mem_sortByKey_aux (tz : Int) (l : List Slot) :
    ∀ (acc : List Slot) (s : Slot),
      s ∈ List.foldl (fun acc x => sortInsert tz x acc) acc l ↔ s ∈ acc ∨ s ∈ l := by
  induction l with
  | nil => simp
  | cons x xs ih =>
    intro acc s
    rw [List.foldl_cons, ih, mem_sortInsert]
    simp
    tauto

/-- Membership is preserved by the sort of `nextAppointment`. -/
theorem mem_sortByKey (tz : Int) (l : List Slot) (s : Slot) :
    s ∈ sortByKey tz l ↔ s ∈ l := by
  unfold sortByKey
  rw [mem_sortByKey_aux]
  simp

/-! ### Fetch pipeline lemmas (C5, C10) -/

/-- Anything the verified view keeps came from the input list. -/
theorem mem_of_mem_verified (u : Identity) (apps : List Slot) (s : Slot)
    (h : s ∈ verifiedUserAppointments u apps) : s ∈ apps := by
  rw [verifiedUserAppointments_eq_filter, List.mem_filter] at h
  exact h.1

/-- Anything `loadUserAppointments` returns came from the store, is booked,
and is dated inside the fetched 22-date window. -/
theorem mem_load_inv (now : Int) (u : Identity) (store : List Slot) (s : Slot)
    (h : s ∈ loadUserAppointments now u store) :
    s ∈ store ∧ s.is_available = false ∧
      ∃ d, s.slot_date = some d ∧ d ∈ datesWindow now := by
  unfold loadUserAppointments at h
  split at h
  · cases h
  · unfold getUserAppointmentsForMultipleDates at h
    have hbase : s ∈ store.filter (serverBaseFilter (datesWindow now)) := by
      split at h
      · rw [List.mem_filter] at h
        exact (List.mem_filter.1 h.1).1
      · exact (List.mem_filter.1 h).1
    rw [List.mem_filter] at hbase
    obtain ⟨hstore, hpred⟩ := hbase
    unfold serverBaseFilter at hpred
    rw [Bool.and_eq_true] at hpred
    obtain ⟨hdate, hbooked⟩ := hpred
    refine ⟨hstore, by simpa using hbooked, ?_⟩
    cases hsd : s.slot_date with
    | none => rw [hsd] at hdate; cases hdate
    | some d =>
      rw [hsd] at hdate
      exact ⟨d, rfl, by simpa using hdate⟩

/-! ### C5: open slots never reach any view -/

/-- C5: a record with `isAvailable = true` is excluded by the fetch query
(`.eq('is_available', false)`) and therefore never appears in the loaded
list, the upcoming view, the past view, or as the next appointment —
whatever the identity fields say. -/
theorem open_slot_never_in_outputs (tz now : Int) (u : Identity) (store : List Slot)
    (s : Slot) (hav : s.is_available = true) :
    s ∉ loadUserAppointments now u store ∧
      s ∉ upcomingAppointments tz now u (loadUserAppointments now u store) ∧
      s ∉ pastAppointments tz now u (loadUserAppointments now u store) ∧
      nextAppointment tz (upcomingAppointments tz now u (loadUserAppointments now u store)) ≠
        some s := by
  have hload : s ∉ loadUserAppointments now u store := by
    intro h
    have := (mem_load_inv now u store s h).2.1
    rw [hav] at this
    cases this
  have hupc : s ∉ upcomingAppointments tz now u (loadUserAppointments now u store) := by
    intro h
    unfold upcomingAppointments at h
    exact hload (mem_of_mem_verified u _ s (List.mem_filter.1 h).1)
  refine ⟨hload, hupc, ?_, ?_⟩
  · intro h
    unfold pastAppointments at h
    exact hload (mem_of_mem_verified u _ s (List.mem_filter.1 h).1)
  · intro h
    unfold nextAppointment at h
    apply hupc
    rw [← mem_sortByKey tz]
    rcases hsk : sortByKey tz (upcomingAppointments tz now u (loadUserAppointments now u store)) with
      - | ⟨a, t⟩
    · rw [hsk] at h
      cases h
    · rw [hsk] at h
      simp at h
      rw [← h]
      exact List.mem_cons_self a t

/-- Witness for C5: an open slot whose name matches the identity, in a
concrete store at a concrete time. -/
theorem open_slot_never_in_outputs_witness :
    (⟨1, some 1, none, some "dana", none, none, true⟩ : Slot) ∉
        loadUserAppointments 0 ⟨some "dana", none⟩
          [⟨1, some 1, none, some "dana", none, none, true⟩] ∧
      (⟨1, some 1, none, some "dana", none, none, true⟩ : Slot) ∉
        upcomingAppointments 0 0 ⟨some "dana", none⟩
          (loadUserAppointments 0 ⟨some "dana", none⟩
            [⟨1, some 1, none, some "dana", none, none, true⟩]) ∧
      (⟨1, some 1, none, some "dana", none, none, true⟩ : Slot) ∉
        pastAppointments 0 0 ⟨some "dana", none⟩
          (loadUserAppointments 0 ⟨some "dana", none⟩
            [⟨1, some 1, none, some "dana", none, none, true⟩]) ∧
      nextAppointment 0 (upcomingAppointments 0 0 ⟨some "dana", none⟩
        (loadUserAppointments 0 ⟨some "dana", none⟩
          [⟨1, some 1, none, some "dana", none, none, true⟩])) ≠
        some ⟨1, some 1, none, some "dana", none, none, true⟩ :=
  open_slot_never_in_outputs 0 0 ⟨some "dana", none⟩ _ _ rfl

/-! ### C6: the upcoming/past partition -/

/-- C6: every owned, booked, dated record of the classification input lies
in exactly one of the upcoming and past views: both filters compare the
record's date-only midnight against the same memoized "today at midnight"
(computed once from `now` and shared), so the `≥`/`<` split is total and
mutually exclusive. -/
theorem upcoming_past_partition (tz now : Int) (u : Identity) (apps : List Slot)
    (s : Slot) (d : Int) (hs : s ∈ verifiedUserAppointments u apps)
    (_hb : s.is_available = false) (hd : s.slot_date = some d) :
    (s ∈ upcomingAppointments tz now u apps ∧ s ∉ pastAppointments tz now u apps) ∨
      (s ∉ upcomingAppointments tz now u apps ∧ s ∈ pastAppointments tz now u apps) := by
  have hup : upcomingPred tz now s =
      decide (localMidnight tz now ≤ localMidnight tz (jsDateOnlyMs d)) := by
    unfold upcomingPred dateInstant
    rw [hd]
    rfl
  have hpp : pastPred tz now s =
      decide (localMidnight tz (jsDateOnlyMs d) < localMidnight tz now) := by
    unfold pastPred dateInstant
    rw [hd]
    rfl
  by_cases h : localMidnight tz now ≤ localMidnight tz (jsDateOnlyMs d)
  · left
    constructor
    · unfold upcomingAppointments
      rw [List.mem_filter, hup]
      exact ⟨hs, by simpa⟩
    · unfold pastAppointments
      rw [List.mem_filter, hpp]
      rintro ⟨-, hc⟩
      simp at hc
      omega
  · right
    constructor
    · unfold upcomingAppointments
      rw [List.mem_filter, hup]
      rintro ⟨-, hc⟩
      simp at hc
      omega
    · unfold pastAppointments
      rw [List.mem_filter, hpp]
      exact ⟨hs, by simp; omega⟩

/-- Witness for C6: a concrete owned, booked record dated one day after a
concrete `now`, landing in the upcoming view and not the past view. -/
theorem upcoming_past_partition_witness :
    ((⟨1, some 1, none, some "dana", none, none, false⟩ : Slot) ∈
        upcomingAppointments 0 0 ⟨some "dana", none⟩
          [⟨1, some 1, none, some "dana", none, none, false⟩] ∧
      (⟨1, some 1, none, some "dana", none, none, false⟩ : Slot) ∉
        pastAppointments 0 0 ⟨some "dana", none⟩
          [⟨1, some 1, none, some "dana", none, none, false⟩]) ∨
      ((⟨1, some 1, none, some "dana", none, none, false⟩ : Slot) ∉
        upcomingAppointments 0 0 ⟨some "dana", none⟩
          [⟨1, some 1, none, some "dana", none, none, false⟩] ∧
      (⟨1, some 1, none, some "dana", none, none, false⟩ : Slot) ∈
        pastAppointments 0 0 ⟨some "dana", none⟩
          [⟨1, some 1, none, some "dana", none, none, false⟩]) :=
  upcoming_past_partition 0 0 ⟨some "dana", none⟩ _ _ 1 (by decide) rfl rfl

/-! ### C3: the next appointment -/

/-- The head of an insertion is the new element or the old head. -/
theorem sortInsert_head? (tz : Int) (x : Slot) (l : List Slot) :
    (sortInsert tz x l).head? = some x ∨ (sortInsert tz x l).head? = l.head? := by
  cases l with
  | nil => left; rfl
  | cons y ys =>
    unfold sortInsert
    by_cases h : keyLt (nextKey tz x) (nextKey tz y) = true
    · rw [if_pos h]; left; rfl
    · rw [if_neg h]; right; rfl

/-- When the new element and every sorted element have numeric keys,
insertion preserves the non-decreasing key chain. -/
theorem sortInsert_chain (tz : Int) (x : Slot) (l : List Slot)
    (hx : (nextKey tz x).isSome) (hl : ∀ s ∈ l, (nextKey tz s).isSome)
    (hc : List.Chain' (fun a b => keyv tz a ≤ keyv tz b) l) :
    List.Chain' (fun a b => keyv tz a ≤ keyv tz b) (sortInsert tz x l) := by
  induction l with
  | nil => simp [sortInsert]
  | cons y ys ih =>
    obtain ⟨kx, hkx⟩ := Option.isSome_iff_exists.1 hx
    obtain ⟨ky, hky⟩ := Option.isSome_iff_exists.1 (hl y (List.mem_cons_self y ys))
    unfold sortInsert
    by_cases h : keyLt (nextKey tz x) (nextKey tz y) = true
    · rw [if_pos h]
      refine List.chain'_cons.2 ⟨?_, hc⟩
      unfold keyLt at h
      rw [hkx, hky] at h
      simp at h
      unfold keyv
      rw [hkx, hky]
      simp
      omega
    · rw [if_neg h]
      have hyx : keyv tz y ≤ keyv tz x := by
        unfold keyLt at h
        rw [hkx, hky] at h
        simp at h
        unfold keyv
        rw [hkx, hky]
        simpa using h
      rw [List.chain'_cons']
      constructor
      · intro z hz
        rcases sortInsert_head? tz x ys with h1 | h1
        · rw [h1] at hz
          simp at hz
          rw [← hz]
          exact hyx
        · rw [h1] at hz
          exact (List.chain'_cons'.1 hc).1 z hz
      · exact ih (fun s hs => hl s (List.mem_cons_of_mem y hs)) (List.chain'_cons'.1 hc).2

/-- The head of a non-decreasing key chain has the minimal key. -/
theorem chain_head_min (tz : Int) :
    ∀ (l : List Slot) (m : Slot),
      List.Chain' (fun a b => keyv tz a ≤ keyv tz b) (m :: l) →
      ∀ x ∈ l, keyv tz m ≤ keyv tz x := by
  intro l
  induction l with
  | nil => intro m _ x hx; cases hx
  | cons y ys ih =>
    intro m hc x hx
    have h1 : keyv tz m ≤ keyv tz y := (List.chain'_cons.1 hc).1
    rcases List.mem_cons.1 hx with rfl | hx
    · exact h1
    · exact le_trans h1 (ih y (List.chain'_cons.1 hc).2 x hx)

/-- Over a list whose keys are all numeric, the sort of `nextAppointment`
produces a non-decreasing key chain. -/
theorem sortByKey_chain (tz : Int) (l : List Slot)
    (hl : ∀ s ∈ l, (nextKey tz s).isSome) :
    List.Chain' (fun a b => keyv tz a ≤ keyv tz b) (sortByKey tz l) := by
  suffices haux : ∀ (l acc : List Slot), (∀ s ∈ l, (nextKey tz s).isSome) →
      (∀ s ∈ acc, (nextKey tz s).isSome) →
      List.Chain' (fun a b => keyv tz a ≤ keyv tz b) acc →
      List.Chain' (fun a b => keyv tz a ≤ keyv tz b)
        (List.foldl (fun acc x => sortInsert tz x acc) acc l) by
    exact haux l [] hl (by intro s hs; cases hs) List.chain'_nil
  intro l
  induction l with
  | nil => intro acc _ _ hc; exact hc
  | cons x xs ih =>
    intro acc hl2 hacc hc
    rw [List.foldl_cons]
    apply ih
    · intro s hs
      exact hl2 s (List.mem_cons_of_mem x hs)
    · intro s hs
      rcases (mem_sortInsert tz x acc s).1 hs with rfl | hs
      · exact hl2 s (List.mem_cons_self s xs)
      · exact hacc s hs
    · exact sortInsert_chain tz x acc (hl2 x (List.mem_cons_self x xs)) hacc hc

/-- C3 (amended): over an upcoming list in which every present time is a
well-formed two-digit in-range time (so every sort key is a number, a
missing time counting as `00:00`), the next appointment is absent iff the
list is empty, and when present it is an element of the list with minimal
composed timestamp.  (The unrestricted claim is refuted by
`nextAppointment_claim_counterexample`: a partial one-digit-hour time
yields an Invalid Date which the comparator ties with everything.) -/
theorem nextAppointment_min_of_wellformed (tz : Int) (l : List Slot)
    (hv : ∀ s ∈ l, (nextKey tz s).isSome) :
    (nextAppointment tz l = none ↔ l = []) ∧
      ∀ m, nextAppointment tz l = some m →
        m ∈ l ∧ ∀ x ∈ l, keyv tz m ≤ keyv tz x := by
  constructor
  · unfold nextAppointment
    rw [List.head?_eq_none_iff]
    constructor
    · intro h
      cases hl : l with
      | nil => rfl
      | cons z zs =>
        have hz : z ∈ sortByKey tz l := by
          rw [mem_sortByKey, hl]
          exact List.mem_cons_self z zs
        rw [h] at hz
        cases hz
    · intro h
      rw [h]
      rfl
  · intro m hm
    unfold nextAppointment at hm
    rcases hsk : sortByKey tz l with - | ⟨a, t⟩
    · rw [hsk] at hm
      cases hm
    · rw [hsk] at hm
      simp at hm
      have hma : m = a := hm.symm
      have hmem : m ∈ l := by
        rw [← mem_sortByKey tz, hsk, hma]
        exact List.mem_cons_self a t
      refine ⟨hmem, ?_⟩
      intro x hx
      have hchain := sortByKey_chain tz l hv
      rw [hsk] at hchain
      have hxsk : x ∈ sortByKey tz l := (mem_sortByKey tz l x).2 hx
      rw [hsk] at hxsk
      rcases List.mem_cons.1 hxsk with rfl | hxt
      · rw [hma]
      · rw [hma]
        exact chain_head_min tz t a hchain x hxt

/-- Witness for C3 (amended): two well-formed records on the same day; the
8:00 one is chosen over the 10:00 one. -/
theorem nextAppointment_min_of_wellformed_witness :
    (nextAppointment 0 [⟨1, some 1, some ⟨10, 0, 2⟩, some "dana", none, none, false⟩,
        ⟨2, some 1, some ⟨8, 0, 2⟩, some "dana", none, none, false⟩] = none ↔
      [(⟨1, some 1, some ⟨10, 0, 2⟩, some "dana", none, none, false⟩ : Slot),
        ⟨2, some 1, some ⟨8, 0, 2⟩, some "dana", none, none, false⟩] = []) ∧
      ∀ m, nextAppointment 0 [⟨1, some 1, some ⟨10, 0, 2⟩, some "dana", none, none, false⟩,
          ⟨2, some 1, some ⟨8, 0, 2⟩, some "dana", none, none, false⟩] = some m →
        m ∈ [(⟨1, some 1, some ⟨10, 0, 2⟩, some "dana", none, none, false⟩ : Slot),
          ⟨2, some 1, some ⟨8, 0, 2⟩, some "dana", none, none, false⟩] ∧
          ∀ x ∈ [(⟨1, some 1, some ⟨10, 0, 2⟩, some "dana", none, none, false⟩ : Slot),
            ⟨2, some 1, some ⟨8, 0, 2⟩, some "dana", none, none, false⟩],
            keyv 0 m ≤ keyv 0 x :=
  nextAppointment_min_of_wellformed 0 _ (by decide)

/-- C3 counterexample: with a well-formed `10:00` record first and a
partial `9:30` record second (same day, both upcoming for the identity at
`now = 0`), the claim's composed-timestamp order (partial time read as
`00:00`) makes the second record the strict minimum — yet the code's
Invalid-Date tie keeps input order and returns the first record as next. -/
theorem nextAppointment_claim_counterexample :
    upcomingAppointments 0 0 ⟨some "dana", none⟩
        [⟨1, some 1, some ⟨10, 0, 2⟩, some "dana", none, none, false⟩,
          ⟨2, some 1, some ⟨9, 30, 1⟩, some "dana", none, none, false⟩] =
      [⟨1, some 1, some ⟨10, 0, 2⟩, some "dana", none, none, false⟩,
        ⟨2, some 1, some ⟨9, 30, 1⟩, some "dana", none, none, false⟩] ∧
    nextAppointment 0 [⟨1, some 1, some ⟨10, 0, 2⟩, some "dana", none, none, false⟩,
        ⟨2, some 1, some ⟨9, 30, 1⟩, some "dana", none, none, false⟩] =
      some ⟨1, some 1, some ⟨10, 0, 2⟩, some "dana", none, none, false⟩ ∧
    specComposedKey 0 ⟨2, some 1, some ⟨9, 30, 1⟩, some "dana", none, none, false⟩ <
      specComposedKey 0 ⟨1, some 1, some ⟨10, 0, 2⟩, some "dana", none, none, false⟩ := by
  decide

/-! ### C10: the fetched date window -/

/-- Shifting an instant by whole days shifts its UTC calendar date by the
same count. -/
theorem fdiv_day_shift (now i : Int) :
    (now + i * msPerDay).fdiv msPerDay = now.fdiv msPerDay + i := by
  rw [Int.fdiv_eq_ediv _ (by norm_num [msPerDay]),
    Int.fdiv_eq_ediv _ (by norm_num [msPerDay])]
  exact Int.add_mul_ediv_right now i (by norm_num [msPerDay])

/-- The fetched dates are exactly the 22 consecutive UTC calendar dates
from 7 before to 14 after the UTC date of `now`. -/
theorem mem_datesWindow (now d : Int) :
    d ∈ datesWindow now ↔
      now.fdiv msPerDay - 7 ≤ d ∧ d ≤ now.fdiv msPerDay + 14 := by
  unfold datesWindow toISODateString jsAddDays
  rw [List.mem_map]
  constructor
  · rintro ⟨k, hk, rfl⟩
    rw [List.mem_range] at hk
    rw [fdiv_day_shift]
    omega
  · rintro ⟨h1, h2⟩
    refine ⟨(d - (now.fdiv msPerDay - 7)).toNat, ?_, ?_⟩
    · rw [List.mem_range]
      omega
    · rw [fdiv_day_shift]
      omega

/-- C10 (amended): the fetch builds exactly 22 calendar dates, anchored at
the UTC calendar date of `now` (`toISOString` renders UTC): from 7 days
before to 14 days after that UTC date.  Every record any view can contain
is dated inside that window.  This coincides with "7 days before today
through 14 days after today" only while the local and UTC calendar dates
agree; the unrestricted local-day reading is refuted by
`fetch_window_counterexample`. -/
theorem fetch_window_utc_anchored (tz now : Int) (u : Identity) (store : List Slot)
    (s : Slot) (d : Int) (hd : s.slot_date = some d)
    (hs : s ∈ loadUserAppointments now u store ∨
      s ∈ upcomingAppointments tz now u (loadUserAppointments now u store) ∨
      s ∈ pastAppointments tz now u (loadUserAppointments now u store)) :
    (datesWindow now).length = 22 ∧
      now.fdiv msPerDay - 7 ≤ d ∧ d ≤ now.fdiv msPerDay + 14 := by
  have hload : s ∈ loadUserAppointments now u store := by
    rcases hs with h | h | h
    · exact h
    · unfold upcomingAppointments at h
      exact mem_of_mem_verified u _ s (List.mem_filter.1 h).1
    · unfold pastAppointments at h
      exact mem_of_mem_verified u _ s (List.mem_filter.1 h).1
  obtain ⟨-, -, d2, hd2, hmem⟩ := mem_load_inv now u store s hload
  rw [hd] at hd2
  injection hd2 with hdd
  subst hdd
  exact ⟨by simp [datesWindow], (mem_datesWindow now d).1 hmem⟩

/-- Witness for C10 (amended): a booked, owned record dated epoch day 3,
fetched at `now = 0` (UTC day 0), sits inside `[-7, 14]`. -/
theorem fetch_window_utc_anchored_witness :
    (datesWindow 0).length = 22 ∧
      (0 : Int).fdiv msPerDay - 7 ≤ 3 ∧ (3 : Int) ≤ (0 : Int).fdiv msPerDay + 14 :=
  fetch_window_utc_anchored 0 0 ⟨some "dana", none⟩
    [⟨1, some 3, none, some "dana", none, none, false⟩]
    ⟨1, some 3, none, some "dana", none, none, false⟩ 3 rfl (Or.inl (by decide))

/-- C10 counterexample: at 23:30 UTC on epoch day 100 in a UTC+2 zone the
local date is already day 101, but `toISOString` anchors the window at UTC
day 100, so day 93 = `localToday - 8` is fetched; a booked, owned record on
day 93 then lands in the past view although it is 8 local days old —
beyond the claimed 7-day horizon. -/
theorem fetch_window_counterexample :
    (⟨1, some 93, none, some "dana", none, some "gel", false⟩ : Slot) ∈
        pastAppointments 7200000 8724600000 ⟨some "dana", none⟩
          (loadUserAppointments 8724600000 ⟨some "dana", none⟩
            [⟨1, some 93, none, some "dana", none, some "gel", false⟩]) ∧
      localMidnight 7200000 8724600000 - localMidnight 7200000 (jsDateOnlyMs 93) =
        8 * msPerDay := by
  decide

/-! ### C1, C2: the cancel operation -/

/-- C1 (code-bug exhibit): cancelling a record that is already available
at mutation time.  The `.single()` fetch still finds the row, the
conditional update matches zero rows — the store is unchanged — and the
client reports no error, so `cancelAppointment` returns `true`;
`confirmCancelAppointment` then reports success to the user and removes
the stale entry from the local list.  The spec instead requires a
`ConcurrentStateChange` failure with the local views left unchanged. -/
theorem cancel_already_available_reports_success :
    (cancelAppointment false false [⟨1, some 5, none, none, none, none, true⟩] 1).success =
        true ∧
      (cancelAppointment false false [⟨1, some 5, none, none, none, none, true⟩] 1).store =
        [⟨1, some 5, none, none, none, none, true⟩] ∧
      (confirmCancelAppointment false false false
          [⟨1, some 5, none, none, none, none, true⟩]
          [⟨1, some 5, none, some "dana", some "0501234567", some "gel", false⟩]
          ⟨1, some 5, none, some "dana", some "0501234567", some "gel", false⟩).reportedSuccess =
        true ∧
      (confirmCancelAppointment false false false
          [⟨1, some 5, none, none, none, none, true⟩]
          [⟨1, some 5, none, some "dana", some "0501234567", some "gel", false⟩]
          ⟨1, some 5, none, some "dana", some "0501234567", some "gel", false⟩).localList =
        [] := by
  decide

/-- C2 (code-bug exhibit): the two waitlist notifications are awaited
inside the same `try` as the mutation.  With the conditional update
already committed (the slot is freed in the store), a rejection of the
first waitlist notifier is caught by `cancelAppointment`'s `catch`, which
returns `false` — the user is told the cancellation failed — and the
second (service) waitlist notifier is never invoked.  Only the admin
notification is genuinely fire-and-forget: its rejection (`adminThrows`)
leaves the reported success untouched. -/
theorem waitlist_rejection_flips_cancel_result :
    cancelAppointment true false
        [⟨1, some 5, none, some "dana", some "0501234567", some "gel", false⟩] 1 =
      ⟨[⟨1, some 5, none, none, none, none, true⟩], false, true, false⟩ ∧
    (confirmCancelAppointment false false true
        [⟨1, some 5, none, some "dana", some "0501234567", some "gel", false⟩]
        [⟨1, some 5, none, some "dana", some "0501234567", some "gel", false⟩]
        ⟨1, some 5, none, some "dana", some "0501234567", some "gel", false⟩).reportedSuccess =
      true := by
  decide
